import Mathlib

/-!
Shallow embedding of the `ruuls` rules engine (src/ruuls.rs).

The engine evaluates a tree of conditions (`Rule`) against a fact payload,
producing a `RuleResult` tree annotated with a three-valued `Status`.
Facts come either as a flat string map (`check_map`, modelled over an
association list) or as a structured JSON document (`check_json`, modelled
over an inductive `Value` type whose numbers are the integers exposed by
`as_i64`; pure floating-point numbers are outside the model, they behave
like any other value `as_i64` rejects).
-/

namespace Ruuls

/-- Three-valued status of a rule check (`enum Status` in src/ruuls.rs). -/
inductive Status where
  | Met : Status
  | NotMet : Status
  | Unknown : Status
  deriving DecidableEq, Repr

/-- `impl BitAnd for Status`: `Met & Met = Met`, any `NotMet` operand gives
`NotMet`, otherwise `Unknown`. -/
def Status.and : Status → Status → Status
  | .Met, .Met => .Met
  | .NotMet, _ => .NotMet
  | _, .NotMet => .NotMet
  | _, _ => .Unknown

/-- `impl BitOr for Status`: `NotMet | NotMet = NotMet`, any `Met` operand
gives `Met`, otherwise `Unknown`. -/
def Status.or : Status → Status → Status
  | .NotMet, .NotMet => .NotMet
  | .Met, _ => .Met
  | _, .Met => .Met
  | _, _ => .Unknown

/-- `impl Not for Status`: swaps `Met` and `NotMet`, fixes `Unknown`. -/
def Status.not : Status → Status
  | .Met => .NotMet
  | .NotMet => .Met
  | .Unknown => .Unknown

/-- Leaf constraint operators (`enum Constraint`).  Rust's `i64` operands are
modelled as `Int`; the fact-side coercions (`parseI64`, `Value.asI64`) carry
the explicit 64-bit range checks.  The second range operand is called `stop`
because `end` is reserved in Lean (`IntInRange(start, end)` in the source). -/
inductive Constraint where
  | StringEquals (s : String)
  | StringNotEquals (s : String)
  | StringIn (ss : List String)
  | StringNotIn (ss : List String)
  | IntEquals (num : Int)
  | IntNotEquals (num : Int)
  | IntIn (nums : List Int)
  | IntNotIn (nums : List Int)
  | IntInRange (start stop : Int)
  | IntNotInRange (start stop : Int)
  | LessThan (num : Int)
  | LessThanInclusive (num : Int)
  | GreaterThan (num : Int)
  | GreaterThanInclusive (num : Int)
  | BoolEquals (b : Bool)
  deriving DecidableEq, Repr

/-- Smallest `i64` value, `-2^63`. -/
def i64Min : Int := -9223372036854775808

/-- Largest `i64` value, `2^63 - 1`. -/
def i64Max : Int := 9223372036854775807

/-- Value of a list of decimal digit characters. -/
def digitsToNat (l : List Char) : Nat :=
  l.foldl (fun acc c => acc * 10 + (c.toNat - 48)) 0

/-- Splits an optional leading sign off a character list, as Rust's integer
`FromStr` does. -/
def parseSign : List Char → Int × List Char
  | '+' :: rest => (1, rest)
  | '-' :: rest => (-1, rest)
  | l => (1, l)

/-- Rust's `str::parse::<i64>()`: an optional `+`/`-` sign followed by one or
more ASCII digits, with the resulting value required to fit in `i64`
(overflow is a parse error). -/
def parseI64 (s : String) : Option Int :=
  let sd := parseSign s.data
  if sd.2 ≠ [] ∧ sd.2.all Char.isDigit then
    let v : Int := sd.1 * (digitsToNat sd.2 : Nat)
    if i64Min ≤ v ∧ v ≤ i64Max then some v else none
  else none

/-- Rust's `str::parse::<bool>()`: accepts exactly `"true"` and `"false"`,
anything else is a parse error. -/
def parseBool (s : String) : Option Bool :=
  if s = "true" then some true
  else if s = "false" then some false
  else none

/-- JSON documents (`serde_json::Value`).  Numbers are modelled by the
integers they expose through `as_i64`; see the module comment. -/
inductive Value where
  | null : Value
  | bool (b : Bool) : Value
  | num (n : Int) : Value
  | str (s : String) : Value
  | arr (items : List Value) : Value
  | obj (entries : List (String × Value)) : Value

/-- `Value::as_str`. -/
def Value.asStr : Value → Option String
  | .str s => some s
  | _ => none

/-- `Value::as_bool`. -/
def Value.asBool : Value → Option Bool
  | .bool b => some b
  | _ => none

/-- `Value::as_i64`: an integral number representable as `i64`; strings,
booleans, arrays, objects and null never coerce. -/
def Value.asI64 : Value → Option Int
  | .num n => if i64Min ≤ n ∧ n ≤ i64Max then some n else none
  | _ => none

/-- Splits a character list on `'/'` (the token decomposition performed by
`Value::pointer` after the leading slash is removed). -/
def splitTokens : List Char → List (List Char)
  | [] => [[]]
  | c :: rest =>
    if c = '/' then [] :: splitTokens rest
    else
      match splitTokens rest with
      | [] => [[c]]
      | t :: ts => (c :: t) :: ts

/-- JSON-pointer unescaping: `~1` becomes `/` and `~0` becomes `~`.  The
source applies `replace("~1", "/")` then `replace("~0", "~")`; since
replacing `~1` by `/` can never create a new `~0` occurrence, this single
left-to-right pass computes the same string. -/
def unescape : List Char → List Char
  | '~' :: '1' :: rest => '/' :: unescape rest
  | '~' :: '0' :: rest => '~' :: unescape rest
  | c :: rest => c :: unescape rest
  | [] => []

/-- `serde_json`'s `parse_index`: rejects a leading `+` and leading zeros,
then parses a nonempty run of digits as an array index. -/
def parseIndex (t : List Char) : Option Nat :=
  match t with
  | [] => none
  | '+' :: _ => none
  | ['0'] => some 0
  | '0' :: _ :: _ => none
  | l => if l.all Char.isDigit then some (digitsToNat l) else none

/-- Key lookup in an object's entry list (`Map::get`). -/
def lookupEntry (k : String) : List (String × Value) → Option Value
  | [] => none
  | (k2, v) :: rest => if k2 = k then some v else lookupEntry k rest

/-- One traversal step of `Value::pointer`: objects are indexed by the
unescaped token, arrays by `parse_index`, everything else fails. -/
def pointerStep (acc : Option Value) (tok : List Char) : Option Value :=
  match acc with
  | none => none
  | some (.obj entries) => lookupEntry (String.mk (unescape tok)) entries
  | some (.arr items) => (parseIndex (unescape tok)).bind fun i => items[i]?
  | some _ => none

/-- `Value::pointer`: the empty path addresses the whole document, a path
not starting with `'/'` resolves to nothing, and otherwise the
slash-separated tokens are folded over the document. -/
def Value.pointer (v : Value) (p : String) : Option Value :=
  match p.data with
  | [] => some v
  | c :: rest =>
    if c = '/' then (splitTokens rest).foldl pointerStep (some v)
    else none

/-- Condition tree (`enum Rule`): conjunction, disjunction, threshold and
leaf nodes.  The leaf variant is `Rule::Rule { field, constraint }` in the
source. -/
inductive Rule where
  | and (and : List Rule) : Rule
  | or (or : List Rule) : Rule
  | atLeast (n : Nat) (rules : List Rule) : Rule
  | rule (field : String) (constraint : Constraint) : Rule

/-- Result tree (`struct RuleResult { name, status, children }`). -/
inductive RuleResult where
  | mk (name : String) (status : Status) (children : List RuleResult) : RuleResult

/-- The `name` field of a result node. -/
def RuleResult.name : RuleResult → String
  | .mk n _ _ => n

/-- The `status` field of a result node. -/
def RuleResult.status : RuleResult → Status
  | .mk _ s _ => s

/-- The `children` field of a result node. -/
def RuleResult.children : RuleResult → List RuleResult
  | .mk _ _ c => c

/-- `Constraint::check_str`: matches one constraint against a raw string
fact.  Integer and boolean operators go through Rust's `parse`. -/
def Constraint.checkStr (c : Constraint) (v : String) : Status :=
  match c with
  | .StringEquals s => if v = s then .Met else .NotMet
  | .StringNotEquals s => if v ≠ s then .Met else .NotMet
  | .StringIn ss => if ss.any (fun s => decide (s = v)) then .Met else .NotMet
  | .StringNotIn ss => if ss.all (fun s => decide (s ≠ v)) then .Met else .NotMet
  | .IntEquals num =>
    match parseI64 v with
    | some val => if val = num then .Met else .NotMet
    | none => .NotMet
  | .IntNotEquals num =>
    match parseI64 v with
    | some val => if val ≠ num then .Met else .NotMet
    | none => .NotMet
  | .IntIn nums =>
    match parseI64 v with
    | some val => if nums.any (fun num => decide (num = val)) then .Met else .NotMet
    | none => .NotMet
  | .IntNotIn nums =>
    match parseI64 v with
    | some val => if nums.all (fun num => decide (num ≠ val)) then .Met else .NotMet
    | none => .NotMet
  | .IntInRange start stop =>
    match parseI64 v with
    | some val => if start ≤ val ∧ val ≤ stop then .Met else .NotMet
    | none => .NotMet
  | .IntNotInRange start stop =>
    match parseI64 v with
    | some val => if start ≤ val ∧ val ≤ stop then .NotMet else .Met
    | none => .NotMet
  | .LessThan num =>
    match parseI64 v with
    | some val => if val < num then .Met else .NotMet
    | none => .NotMet
  | .LessThanInclusive num =>
    match parseI64 v with
    | some val => if val ≤ num then .Met else .NotMet
    | none => .NotMet
  | .GreaterThan num =>
    match parseI64 v with
    | some val => if val > num then .Met else .NotMet
    | none => .NotMet
  | .GreaterThanInclusive num =>
    match parseI64 v with
    | some val => if val ≥ num then .Met else .NotMet
    | none => .NotMet
  | .BoolEquals b =>
    match parseBool v with
    | some val => if val = b then .Met else .NotMet
    | none => .NotMet

/-- `Constraint::check_json`: matches one constraint against a JSON fact
value through the `as_str` / `as_i64` / `as_bool` coercions. -/
def Constraint.checkJson (c : Constraint) (v : Value) : Status :=
  match c with
  | .StringEquals s =>
    match v.asStr with
    | some val => if val = s then .Met else .NotMet
    | none => .NotMet
  | .StringNotEquals s =>
    match v.asStr with
    | some val => if val ≠ s then .Met else .NotMet
    | none => .NotMet
  | .StringIn ss =>
    match v.asStr with
    | some val => if ss.any (fun s => decide (s = val)) then .Met else .NotMet
    | none => .NotMet
  | .StringNotIn ss =>
    match v.asStr with
    | some val => if ss.all (fun s => decide (s ≠ val)) then .Met else .NotMet
    | none => .NotMet
  | .IntEquals num =>
    match v.asI64 with
    | some val => if val = num then .Met else .NotMet
    | none => .NotMet
  | .IntNotEquals num =>
    match v.asI64 with
    | some val => if val ≠ num then .Met else .NotMet
    | none => .NotMet
  | .IntIn nums =>
    match v.asI64 with
    | some val => if nums.any (fun num => decide (num = val)) then .Met else .NotMet
    | none => .NotMet
  | .IntNotIn nums =>
    match v.asI64 with
    | some val => if nums.all (fun num => decide (num ≠ val)) then .Met else .NotMet
    | none => .NotMet
  | .IntInRange start stop =>
    match v.asI64 with
    | some val => if start ≤ val ∧ val ≤ stop then .Met else .NotMet
    | none => .NotMet
  | .IntNotInRange start stop =>
    match v.asI64 with
    | some val => if start ≤ val ∧ val ≤ stop then .NotMet else .Met
    | none => .NotMet
  | .LessThan num =>
    match v.asI64 with
    | some val => if val < num then .Met else .NotMet
    | none => .NotMet
  | .LessThanInclusive num =>
    match v.asI64 with
    | some val => if val ≤ num then .Met else .NotMet
    | none => .NotMet
  | .GreaterThan num =>
    match v.asI64 with
    | some val => if val > num then .Met else .NotMet
    | none => .NotMet
  | .GreaterThanInclusive num =>
    match v.asI64 with
    | some val => if val ≥ num then .Met else .NotMet
    | none => .NotMet
  | .BoolEquals b =>
    match v.asBool with
    | some val => if val = b then .Met else .NotMet
    | none => .NotMet

/-- Key lookup in the flat string fact map (`HashMap::get`). -/
def lookupStr (k : String) : List (String × String) → Option String
  | [] => none
  | (k2, v) :: rest => if k2 = k then some v else lookupStr k rest

mutual

/-- `Rule::check_map`: depth-first evaluation against the flat string map.
All children are always evaluated; `And`/`Or` fold child statuses
left-to-right from `Met`/`NotMet`, `AtLeast` counts `Met` children, a leaf
whose field is absent yields `Unknown`. -/
def Rule.checkMap : Rule → List (String × String) → RuleResult
  | .and rs, info =>
    let children := checkMapList rs info
    .mk "And" (children.foldl (fun st r => st.and r.status) Status.Met) children
  | .or rs, info =>
    let children := checkMapList rs info
    .mk "Or" (children.foldl (fun st r => st.or r.status) Status.NotMet) children
  | .atLeast n rs, info =>
    let children := checkMapList rs info
    let metCount := children.countP (fun r => decide (r.status = Status.Met))
    .mk ("At least " ++ Nat.repr n ++ " of")
      (if n ≤ metCount then Status.Met else Status.NotMet) children
  | .rule field c, info =>
    .mk field
      (match lookupStr field info with
       | some s => c.checkStr s
       | none => Status.Unknown)
      []

/-- Evaluation of a list of sibling nodes, in order (`check_map`). -/
def checkMapList : List Rule → List (String × String) → List RuleResult
  | [], _ => []
  | r :: rs, info => r.checkMap info :: checkMapList rs info

end

mutual

/-- `Rule::check_json`: depth-first evaluation against a JSON document.
Identical aggregation to `check_map`; a leaf resolves its field with
`Value::pointer` and yields `Unknown` when the pointer finds nothing. -/
def Rule.checkJson : Rule → Value → RuleResult
  | .and rs, info =>
    let children := checkJsonList rs info
    .mk "And" (children.foldl (fun st r => st.and r.status) Status.Met) children
  | .or rs, info =>
    let children := checkJsonList rs info
    .mk "Or" (children.foldl (fun st r => st.or r.status) Status.NotMet) children
  | .atLeast n rs, info =>
    let children := checkJsonList rs info
    let metCount := children.countP (fun r => decide (r.status = Status.Met))
    .mk ("At least " ++ Nat.repr n ++ " of")
      (if n ≤ metCount then Status.Met else Status.NotMet) children
  | .rule field c, info =>
    .mk field
      (match info.pointer field with
       | some s => c.checkJson s
       | none => Status.Unknown)
      []

/-- Evaluation of a list of sibling nodes, in order (`check_json`). -/
def checkJsonList : List Rule → Value → List RuleResult
  | [], _ => []
  | r :: rs, info => r.checkJson info :: checkJsonList rs info

end

/-- Whether a JSON fact value coerces to the runtime type a constraint
expects: the `String*` operators use `as_str`, `BoolEquals` uses
`as_bool`, and the integer/ordering operators use `as_i64`, exactly the
coercion each `check_json` arm performs. -/
def jsonCoerces (c : Constraint) (v : Value) : Bool :=
  match c with
  | .StringEquals _ | .StringNotEquals _ | .StringIn _ | .StringNotIn _ => (v.asStr).isSome
  | .BoolEquals _ => (v.asBool).isSome
  | _ => (v.asI64).isSome

/-- Whether a raw string fact coerces to the runtime type a constraint
expects: the `String*` operators use the string as is, `BoolEquals` parses
a `bool`, and the integer/ordering operators parse an `i64`, exactly the
coercion each `check_str` arm performs. -/
def strCoerces (c : Constraint) (s : String) : Bool :=
  match c with
  | .StringEquals _ | .StringNotEquals _ | .StringIn _ | .StringNotIn _ => true
  | .BoolEquals _ => (parseBool s).isSome
  | _ => (parseI64 s).isSome

/-- Lowercasing of a string, character by character.  The source never
lowercases anything; this definition exists only to state the spec's
"case-insensitive token" sentence about `BoolEquals` so it can be tested
against the code. -/
def lowerAscii (s : String) : String := String.mk (s.data.map Char.toLower)

mutual

/-- The isomorphism a result tree must bear to its condition tree: one
result node per condition node in the same order, composite nodes named
`"And"` / `"Or"` / `"At least N of"`, leaves named by their field path and
carrying no children. -/
def matchesShape : Rule → RuleResult → Bool
  | .and rs, res => decide (res.name = "And") && matchesShapeList rs res.children
  | .or rs, res => decide (res.name = "Or") && matchesShapeList rs res.children
  | .atLeast n rs, res =>
    decide (res.name = "At least " ++ Nat.repr n ++ " of") && matchesShapeList rs res.children
  | .rule field _, res => decide (res.name = field) && res.children.isEmpty

/-- Pairwise shape matching of sibling lists, in order. -/
def matchesShapeList : List Rule → List RuleResult → Bool
  | [], [] => true
  | r :: rs, c :: cs => matchesShape r c && matchesShapeList rs cs
  | _, _ => false

end

/-! Helper lemmas shared by the claim theorems. -/

theorem status_mk (n : String) (s : Status) (cs : List RuleResult) :
    (RuleResult.mk n s cs).status = s := rfl

theorem name_mk (n : String) (s : Status) (cs : List RuleResult) :
    (RuleResult.mk n s cs).name = n := rfl

theorem children_mk (n : String) (s : Status) (cs : List RuleResult) :
    (RuleResult.mk n s cs).children = cs := rfl

theorem checkMapList_eq_map (rs : List Rule) (info : List (String × String)) :
    checkMapList rs info = rs.map (fun r => r.checkMap info) := by
  induction rs with
  | nil => simp [checkMapList]
  | cons r rs ih => simp [checkMapList, ih]

theorem and_rightComm (b s1 s2 : Status) :
    (b.and s1).and s2 = (b.and s2).and s1 := by
  cases b <;> cases s1 <;> cases s2 <;> rfl

theorem or_rightComm (b s1 s2 : Status) :
    (b.or s1).or s2 = (b.or s2).or s1 := by
  cases b <;> cases s1 <;> cases s2 <;> rfl

theorem foldl_and_perm {l1 l2 : List RuleResult} (h : l1.Perm l2) (b : Status) :
    l1.foldl (fun st r => st.and r.status) b = l2.foldl (fun st r => st.and r.status) b := by
  haveI : RightCommutative (fun (st : Status) (r : RuleResult) => st.and r.status) :=
    ⟨fun b a1 a2 => and_rightComm b a1.status a2.status⟩
  exact h.foldl_eq b

theorem foldl_or_perm {l1 l2 : List RuleResult} (h : l1.Perm l2) (b : Status) :
    l1.foldl (fun st r => st.or r.status) b = l2.foldl (fun st r => st.or r.status) b := by
  haveI : RightCommutative (fun (st : Status) (r : RuleResult) => st.or r.status) :=
    ⟨fun b a1 a2 => or_rightComm b a1.status a2.status⟩
  exact h.foldl_eq b

mutual

theorem checkMap_shape : ∀ (r : Rule) (info : List (String × String)),
    matchesShape r (r.checkMap info) = true
  | .and rs, info => by
    simp only [Rule.checkMap, matchesShape, name_mk, children_mk]
    simp [checkMapList_shape rs info]
  | .or rs, info => by
    simp only [Rule.checkMap, matchesShape, name_mk, children_mk]
    simp [checkMapList_shape rs info]
  | .atLeast n rs, info => by
    simp only [Rule.checkMap, matchesShape, name_mk, children_mk]
    simp [checkMapList_shape rs info]
  | .rule field c, info => by
    simp only [Rule.checkMap, matchesShape, name_mk, children_mk]
    simp [List.isEmpty]

theorem checkMapList_shape : ∀ (rs : List Rule) (info : List (String × String)),
    matchesShapeList rs (checkMapList rs info) = true
  | [], _ => by simp [checkMapList, matchesShapeList]
  | r :: rs, info => by
    simp only [checkMapList, matchesShapeList]
    simp [checkMap_shape r info, checkMapList_shape rs info]

end

mutual

theorem checkJson_shape : ∀ (r : Rule) (v : Value),
    matchesShape r (r.checkJson v) = true
  | .and rs, v => by
    simp only [Rule.checkJson, matchesShape, name_mk, children_mk]
    simp [checkJsonList_shape rs v]
  | .or rs, v => by
    simp only [Rule.checkJson, matchesShape, name_mk, children_mk]
    simp [checkJsonList_shape rs v]
  | .atLeast n rs, v => by
    simp only [Rule.checkJson, matchesShape, name_mk, children_mk]
    simp [checkJsonList_shape rs v]
  | .rule field c, v => by
    simp only [Rule.checkJson, matchesShape, name_mk, children_mk]
    simp [List.isEmpty]

theorem checkJsonList_shape : ∀ (rs : List Rule) (v : Value),
    matchesShapeList rs (checkJsonList rs v) = true
  | [], _ => by simp [checkJsonList, matchesShapeList]
  | r :: rs, v => by
    simp only [checkJsonList, matchesShapeList]
    simp [checkJson_shape r v, checkJsonList_shape rs v]

end

/-! Claim theorems. -/

/-- Claim C1, counterexample: the claim says that every string whose
lowercase form is not `"true"` makes `check_str(BoolEquals(false), v)`
return `Met`.  At `v = "yes"` the lowercase form is not `"true"`, yet
`check_str` returns `NotMet` (Rust's `parse::<bool>()` rejects `"yes"`),
so the claim is false. -/
theorem claimC1_counterexample :
    lowerAscii "yes" ≠ "true" ∧
    Constraint.checkStr (.BoolEquals false) "yes" ≠ Status.Met := by
  decide

/-- Claim C1, amended: `BoolEquals` against a raw string fact goes through
Rust's exact `bool` parse.  `check_str(BoolEquals(true), v)` is `NotMet`
for every `v ≠ "true"`, `check_str(BoolEquals(false), v)` is `NotMet` for
every `v ≠ "false"` (including `"yes"`, `"1"`, `""`, `"TRUE"`), and the two
exact tokens are the only `Met` cases. -/
theorem claimC1_amended :
    (∀ v : String, v ≠ "true" →
      Constraint.checkStr (.BoolEquals true) v = Status.NotMet) ∧
    (∀ v : String, v ≠ "false" →
      Constraint.checkStr (.BoolEquals false) v = Status.NotMet) ∧
    Constraint.checkStr (.BoolEquals true) "true" = Status.Met ∧
    Constraint.checkStr (.BoolEquals false) "false" = Status.Met := by
  refine ⟨?_, ?_, by decide, by decide⟩
  · intro v hv
    by_cases h : v = "false"
    · subst h; decide
    · simp [Constraint.checkStr, parseBool, hv, h]
  · intro v hv
    by_cases h : v = "true"
    · subst h; decide
    · simp [Constraint.checkStr, parseBool, hv, h]

/-- Claim C1, witness: the amended theorem evaluated at the concrete
strings `"TRUE"` and `"yes"`. -/
theorem claimC1_witness :
    Constraint.checkStr (.BoolEquals true) "TRUE" = Status.NotMet ∧
    Constraint.checkStr (.BoolEquals false) "yes" = Status.NotMet :=
  ⟨claimC1_amended.1 "TRUE" (by decide), claimC1_amended.2.1 "yes" (by decide)⟩

/-- Claim C2, counterexample: the claim says a leading `/` on a leaf's
field path is optional, i.e. `"name"` evaluates like `"/name"`.  Against
the document `{"name": "x"}` the leaf `StringEquals("x")` on `"/name"` is
`Met` but on `"name"` it is `Unknown` (`Value::pointer` resolves nothing
for a nonempty path without the leading slash), so the claim is false. -/
theorem claimC2_counterexample :
    ((Rule.rule "name" (.StringEquals "x")).checkJson
        (Value.obj [("name", Value.str "x")])).status = Status.Unknown ∧
    ((Rule.rule "/name" (.StringEquals "x")).checkJson
        (Value.obj [("name", Value.str "x")])).status = Status.Met := by
  constructor <;>
    simp [Rule.checkJson, status_mk, Value.pointer, splitTokens, pointerStep,
      unescape, lookupEntry, Constraint.checkJson, Value.asStr]

/-- Claim C2, amended: in `check_json` leaf addressing the leading `/` is
required, not optional.  A nonempty field path that does not start with
`/` resolves nothing and the leaf is `Unknown`; the empty path addresses
the whole document; whenever the pointer resolves a value, the leaf's
status is the constraint checked on that value (nested `/`-separated
segments traverse the document pointer-style). -/
theorem claimC2_amended :
    (∀ (field : String) (c : Constraint) (info : Value) (ch : Char) (rest : List Char),
      field.data = ch :: rest → ch ≠ '/' →
      ((Rule.rule field c).checkJson info).status = Status.Unknown) ∧
    (∀ (c : Constraint) (info : Value),
      ((Rule.rule "" c).checkJson info).status = c.checkJson info) ∧
    (∀ (field : String) (c : Constraint) (info : Value) (s : Value),
      info.pointer field = some s →
      ((Rule.rule field c).checkJson info).status = c.checkJson s) := by
  refine ⟨?_, ?_, ?_⟩
  · intro field c info ch rest h hch
    have hp : info.pointer field = none := by
      unfold Value.pointer
      rw [h]
      simp [hch]
    simp [Rule.checkJson, status_mk, hp]
  · intro c info
    have hp : info.pointer "" = some info := rfl
    simp [Rule.checkJson, status_mk, hp]
  · intro field c info s h
    simp [Rule.checkJson, status_mk, h]

/-- Claim C2, witness: the amended theorem evaluated at the concrete field
`"name"` (no leading slash) against `{"name": "x"}`. -/
theorem claimC2_witness :
    ((Rule.rule "name" (.StringIn ["x"])).checkJson
        (Value.obj [("name", Value.str "x")])).status = Status.Unknown :=
  claimC2_amended.1 "name" (.StringIn ["x"]) (Value.obj [("name", Value.str "x")])
    'n' ['a', 'm', 'e'] (by decide) (by decide)

/-- Claim C3: an `AtLeast` node evaluates all children, counts the `Met`
ones, and is `Met` exactly when that count reaches the threshold; its
status is never `Unknown`, a zero threshold is always `Met`, and a
threshold above the child count is always `NotMet`. -/
theorem claimC3 :
    ∀ (n : Nat) (rs : List Rule) (info : List (String × String)),
    (((Rule.atLeast n rs).checkMap info).status =
      if n ≤ (checkMapList rs info).countP (fun r => decide (r.status = Status.Met))
      then Status.Met else Status.NotMet) ∧
    ((Rule.atLeast n rs).checkMap info).status ≠ Status.Unknown ∧
    ((Rule.atLeast 0 rs).checkMap info).status = Status.Met ∧
    (rs.length < n → ((Rule.atLeast n rs).checkMap info).status = Status.NotMet) := by
  intro n rs info
  have hgen : ∀ m : Nat, ((Rule.atLeast m rs).checkMap info).status =
      if m ≤ (checkMapList rs info).countP (fun r => decide (r.status = Status.Met))
      then Status.Met else Status.NotMet := by
    intro m
    simp only [Rule.checkMap, status_mk]
  refine ⟨hgen n, ?_, ?_, ?_⟩
  · rw [hgen n]
    split <;> simp
  · rw [hgen 0]
    simp
  · intro h
    have h1 : (checkMapList rs info).countP (fun r => decide (r.status = Status.Met))
        ≤ (checkMapList rs info).length := List.countP_le_length _
    have h2 : (checkMapList rs info).length = rs.length := by
      rw [checkMapList_eq_map]
      exact List.length_map _ _
    rw [hgen n, if_neg]
    omega

/-- Claim C3, witness: the theorem evaluated at threshold 1 over an empty
child list (`0 = length < 1`), and at threshold 0. -/
theorem claimC3_witness :
    ((Rule.atLeast 1 []).checkMap []).status = Status.NotMet ∧
    ((Rule.atLeast 0 []).checkMap []).status = Status.Met :=
  ⟨(claimC3 1 [] []).2.2.2 (by decide), (claimC3 0 [] []).2.2.1⟩

/-- Claim C4: the `Status` AND, OR and NOT operators realize the
three-valued truth tables exactly — AND is `Met` only on `Met, Met`,
`NotMet` whenever an operand is `NotMet`, `Unknown` otherwise; OR dually
with `Met` dominating; NOT swaps `Met`/`NotMet` and fixes `Unknown`.  All
21 table entries are listed. -/
theorem claimC4 :
    Status.and .Met .Met = .Met ∧
    Status.and .Met .NotMet = .NotMet ∧
    Status.and .Met .Unknown = .Unknown ∧
    Status.and .NotMet .Met = .NotMet ∧
    Status.and .NotMet .NotMet = .NotMet ∧
    Status.and .NotMet .Unknown = .NotMet ∧
    Status.and .Unknown .Met = .Unknown ∧
    Status.and .Unknown .NotMet = .NotMet ∧
    Status.and .Unknown .Unknown = .Unknown ∧
    Status.or .Met .Met = .Met ∧
    Status.or .Met .NotMet = .Met ∧
    Status.or .Met .Unknown = .Met ∧
    Status.or .NotMet .Met = .Met ∧
    Status.or .NotMet .NotMet = .NotMet ∧
    Status.or .NotMet .Unknown = .Unknown ∧
    Status.or .Unknown .Met = .Met ∧
    Status.or .Unknown .NotMet = .Unknown ∧
    Status.or .Unknown .Unknown = .Unknown ∧
    Status.not .Met = .NotMet ∧
    Status.not .NotMet = .Met ∧
    Status.not .Unknown = .Unknown := by
  decide

/-- Claim C5: `Status.and` and `Status.or` are commutative and
associative, and consequently the left-to-right folds in the `And`/`Or`
evaluator arms give a node status invariant under any permutation of the
node's children. -/
theorem claimC5 :
    (∀ a b : Status, a.and b = b.and a) ∧
    (∀ a b : Status, a.or b = b.or a) ∧
    (∀ a b c : Status, (a.and b).and c = a.and (b.and c)) ∧
    (∀ a b c : Status, (a.or b).or c = a.or (b.or c)) ∧
    (∀ (rs1 rs2 : List Rule) (info : List (String × String)), rs1.Perm rs2 →
      ((Rule.and rs1).checkMap info).status = ((Rule.and rs2).checkMap info).status) ∧
    (∀ (rs1 rs2 : List Rule) (info : List (String × String)), rs1.Perm rs2 →
      ((Rule.or rs1).checkMap info).status = ((Rule.or rs2).checkMap info).status) := by
  refine ⟨?_, ?_, ?_, ?_, ?_, ?_⟩
  · intro a b; cases a <;> cases b <;> rfl
  · intro a b; cases a <;> cases b <;> rfl
  · intro a b c; cases a <;> cases b <;> cases c <;> rfl
  · intro a b c; cases a <;> cases b <;> cases c <;> rfl
  · intro rs1 rs2 info h
    have hp : (checkMapList rs1 info).Perm (checkMapList rs2 info) := by
      rw [checkMapList_eq_map, checkMapList_eq_map]
      exact h.map _
    simp only [Rule.checkMap, status_mk]
    exact foldl_and_perm hp Status.Met
  · intro rs1 rs2 info h
    have hp : (checkMapList rs1 info).Perm (checkMapList rs2 info) := by
      rw [checkMapList_eq_map, checkMapList_eq_map]
      exact h.map _
    simp only [Rule.checkMap, status_mk]
    exact foldl_or_perm hp Status.NotMet

/-- Claim C5, witness: the theorem applied to a concrete two-child swap.
One leaf matches the fact map and the other is unknown, so the swapped
`And` nodes both come out `Unknown`. -/
theorem claimC5_witness :
    ((Rule.and [Rule.rule "a" (.StringEquals "v"), Rule.rule "b" (.StringEquals "v")]).checkMap
        [("a", "v")]).status =
    ((Rule.and [Rule.rule "b" (.StringEquals "v"), Rule.rule "a" (.StringEquals "v")]).checkMap
        [("a", "v")]).status :=
  claimC5.2.2.2.2.1 _ _ _ (List.Perm.swap _ _ _)

/-- Claim C6: a leaf whose field is absent from the fact payload — the map
lookup (`check_map`) or the JSON pointer (`check_json`) resolves nothing —
has status `Unknown`, whatever constraint the leaf carries. -/
theorem claimC6 :
    (∀ (field : String) (c : Constraint) (info : List (String × String)),
      lookupStr field info = none →
      ((Rule.rule field c).checkMap info).status = Status.Unknown) ∧
    (∀ (field : String) (c : Constraint) (info : Value),
      info.pointer field = none →
      ((Rule.rule field c).checkJson info).status = Status.Unknown) := by
  constructor
  · intro field c info h
    simp [Rule.checkMap, status_mk, h]
  · intro field c info h
    simp [Rule.checkJson, status_mk, h]

/-- Claim C6, witness: the theorem at the absent field `"age"` in a map
holding only `"name"`, and at the absent pointer `"/age"` in the document
`{"name": "x"}`, with two different operators. -/
theorem claimC6_witness :
    ((Rule.rule "age" (.IntEquals 5)).checkMap [("name", "x")]).status = Status.Unknown ∧
    ((Rule.rule "/age" (.GreaterThan 3)).checkJson
        (Value.obj [("name", Value.str "x")])).status = Status.Unknown :=
  ⟨claimC6.1 "age" (.IntEquals 5) [("name", "x")] (by decide),
   claimC6.2 "/age" (.GreaterThan 3) (Value.obj [("name", Value.str "x")]) rfl⟩

/-- Claim C7: the constraint matchers are total into `{Met, NotMet}` —
neither `check_json` nor `check_str` ever returns `Unknown` — and every
constraint applied to a present fact whose runtime type does not coerce to
what the operator expects (`as_str` / `as_bool` / `as_i64` failing on the
JSON side, the `bool` / `i64` parse failing on the string side) returns
`NotMet`. -/
theorem claimC7 :
    (∀ (c : Constraint) (v : Value), Constraint.checkJson c v ≠ Status.Unknown) ∧
    (∀ (c : Constraint) (s : String), Constraint.checkStr c s ≠ Status.Unknown) ∧
    (∀ (c : Constraint) (v : Value), jsonCoerces c v = false →
      Constraint.checkJson c v = Status.NotMet) ∧
    (∀ (c : Constraint) (s : String), strCoerces c s = false →
      Constraint.checkStr c s = Status.NotMet) := by
  refine ⟨?_, ?_, ?_, ?_⟩
  · intro c v
    cases c <;> simp only [Constraint.checkJson] <;> (try split) <;> (try split) <;> simp
  · intro c s
    cases c <;> simp only [Constraint.checkStr] <;> (try split) <;> (try split) <;> simp
  · intro c v h
    cases c <;>
      simp only [jsonCoerces, Option.isSome] at h <;>
      split at h <;>
      simp_all [Constraint.checkJson]
  · intro c s h
    cases c <;>
      simp only [strCoerces, Option.isSome] at h <;>
      (try split at h) <;>
      simp_all [Constraint.checkStr]

/-- Claim C7, witness: `StringEquals` against a JSON number, `IntEquals`
against a JSON string, `BoolEquals` against the unparsable string
`"yes"` and `GreaterThan` against an unparsable string all come out
`NotMet`. -/
theorem claimC7_witness :
    Constraint.checkJson (.StringEquals "a") (Value.num 3) = Status.NotMet ∧
    Constraint.checkJson (.IntEquals 0) (Value.str "x") = Status.NotMet ∧
    Constraint.checkStr (.BoolEquals true) "yes" = Status.NotMet ∧
    Constraint.checkStr (.GreaterThan 2) "x" = Status.NotMet :=
  ⟨claimC7.2.2.1 (.StringEquals "a") (Value.num 3) (by decide),
   claimC7.2.2.1 (.IntEquals 0) (Value.str "x") (by decide),
   claimC7.2.2.2 (.BoolEquals true) "yes" (by decide),
   claimC7.2.2.2 (.GreaterThan 2) "x" (by decide)⟩

/-- Claim C8, counterexample: the claim says `IntNotInRange(lo, hi)` always
has the status `NOT (IntInRange(lo, hi))` on the same fact value.  On the
non-numeric string `"abc"` both operators return `NotMet`, so the `NOT`
relation fails there. -/
theorem claimC8_counterexample :
    Constraint.checkStr (.IntNotInRange 0 5) "abc" ≠
      (Constraint.checkStr (.IntInRange 0 5) "abc").not := by
  decide

/-- Claim C8, amended: `IntInRange(lo, hi)` is inclusive on both ends, and
`IntNotInRange(lo, hi)` is its status-level negation on every fact value
that coerces to an `i64`; on a fact that does not coerce, both operators
return `NotMet` (so the negation relation holds exactly on coercible
facts). -/
theorem claimC8_amended :
    (∀ (lo hi : Int) (v : Value) (n : Int), v.asI64 = some n →
      (Constraint.checkJson (.IntInRange lo hi) v = Status.Met ↔ lo ≤ n ∧ n ≤ hi) ∧
      Constraint.checkJson (.IntNotInRange lo hi) v =
        (Constraint.checkJson (.IntInRange lo hi) v).not) ∧
    (∀ (lo hi : Int) (s : String) (n : Int), parseI64 s = some n →
      (Constraint.checkStr (.IntInRange lo hi) s = Status.Met ↔ lo ≤ n ∧ n ≤ hi) ∧
      Constraint.checkStr (.IntNotInRange lo hi) s =
        (Constraint.checkStr (.IntInRange lo hi) s).not) ∧
    (∀ (lo hi : Int) (v : Value), v.asI64 = none →
      Constraint.checkJson (.IntInRange lo hi) v = Status.NotMet ∧
      Constraint.checkJson (.IntNotInRange lo hi) v = Status.NotMet) ∧
    (∀ (lo hi : Int) (s : String), parseI64 s = none →
      Constraint.checkStr (.IntInRange lo hi) s = Status.NotMet ∧
      Constraint.checkStr (.IntNotInRange lo hi) s = Status.NotMet) := by
  refine ⟨?_, ?_, ?_, ?_⟩
  · intro lo hi v n h
    refine ⟨?_, ?_⟩ <;> simp only [Constraint.checkJson, h] <;> split <;>
      simp_all [Status.not]
  · intro lo hi s n h
    refine ⟨?_, ?_⟩ <;> simp only [Constraint.checkStr, h] <;> split <;>
      simp_all [Status.not]
  · intro lo hi v h
    constructor <;> simp [Constraint.checkJson, h]
  · intro lo hi s h
    constructor <;> simp [Constraint.checkStr, h]

/-- Claim C8, witness: the amended theorem at `IntInRange(0, 5)` on the
coercible strings `"3"` and `"7"` and the non-coercible string `"abc"`. -/
theorem claimC8_witness :
    (Constraint.checkStr (.IntInRange 0 5) "3" = Status.Met ↔ (0 : Int) ≤ 3 ∧ (3 : Int) ≤ 5) ∧
    Constraint.checkStr (.IntNotInRange 0 5) "7" =
      (Constraint.checkStr (.IntInRange 0 5) "7").not ∧
    Constraint.checkStr (.IntInRange 0 5) "abc" = Status.NotMet :=
  ⟨(claimC8_amended.2.1 0 5 "3" 3 (by decide)).1,
   (claimC8_amended.2.1 0 5 "7" 7 (by decide)).2,
   (claimC8_amended.2.2.2 0 5 "abc" (by decide)).1⟩

/-- Claim C9: both evaluators are total and return a result tree
isomorphic to the condition tree — one result node per condition node, in
order, with leaf results named by the field path and carrying no children,
composite results named `"And"` / `"Or"` / `"At least N of"`, and every
child of a composite always evaluated (the children list is exactly the
pointwise evaluation of the condition's children). -/
theorem claimC9 :
    (∀ (r : Rule) (info : List (String × String)), matchesShape r (r.checkMap info) = true) ∧
    (∀ (r : Rule) (v : Value), matchesShape r (r.checkJson v) = true) ∧
    (∀ (rs : List Rule) (info : List (String × String)),
      ((Rule.and rs).checkMap info).children = rs.map (fun r => r.checkMap info)) ∧
    (∀ (rs : List Rule) (info : List (String × String)),
      ((Rule.or rs).checkMap info).children = rs.map (fun r => r.checkMap info)) ∧
    (∀ (n : Nat) (rs : List Rule) (info : List (String × String)),
      ((Rule.atLeast n rs).checkMap info).children = rs.map (fun r => r.checkMap info)) := by
  refine ⟨checkMap_shape, checkJson_shape, ?_, ?_, ?_⟩ <;> intros <;>
    simp [Rule.checkMap, children_mk, checkMapList_eq_map]

/-- Claim C10: the two entrypoints disagree on string-encoded integers.
`check_json` never coerces a JSON string to an integer, so
`IntEquals(n)` on `Value.str s` is always `NotMet`, while `check_str`
parses the string and is `Met` whenever it parses to `n`; concretely, the
leaf on the empty field with `IntEquals(1)` is `Met` under `check_map` on
`{"": "1"}` but `NotMet` under `check_json` on the corresponding
string-valued object (the empty pointer addresses the whole document,
which is not an integer). -/
theorem claimC10 :
    (∀ (n : Int) (s : String),
      Constraint.checkJson (.IntEquals n) (Value.str s) = Status.NotMet) ∧
    (∀ (n : Int) (s : String), parseI64 s = some n →
      Constraint.checkStr (.IntEquals n) s = Status.Met) ∧
    ((Rule.rule "" (.IntEquals 1)).checkMap [("", "1")]).status = Status.Met ∧
    ((Rule.rule "" (.IntEquals 1)).checkJson
        (Value.obj [("", Value.str "1")])).status = Status.NotMet := by
  refine ⟨?_, ?_, ?_, ?_⟩
  · intro n s
    simp [Constraint.checkJson, Value.asI64]
  · intro n s h
    simp [Constraint.checkStr, h]
  · simp [Rule.checkMap, status_mk, lookupStr, Constraint.checkStr, parseI64,
      parseSign, digitsToNat, i64Min, i64Max]
  · have hp : (Value.obj [("", Value.str "1")]).pointer "" =
        some (Value.obj [("", Value.str "1")]) := rfl
    simp [Rule.checkJson, status_mk, hp, Constraint.checkJson, Value.asI64]

/-- Claim C10, witness: the parse branch of the theorem at `n = 1`,
`s = "1"`. -/
theorem claimC10_witness :
    Constraint.checkStr (.IntEquals 1) "1" = Status.Met :=
  claimC10.2.1 1 "1" (by decide)

end Ruuls
